import Mathlib

/-!
Shallow embedding of `src/server/modules/exbench_module.py`.

Python strings are modelled as `List Char`, Python floats as `ℚ`, Python
ints as `ℕ`.  Fallible Python code (code that may raise) is modelled with
`Except`/`Option`: a `ZeroDivisionError` from `/` is `Option.none`, an
uncaught exception escaping a function is `Except.error`.  The external
collaborators (the per-provider completion clients, `execute_python_code`,
`eval_result_compare`, `parse_markdown_backticks`) are opaque capabilities,
modelled as function-valued fields of a `Capabilities` record.
-/

namespace Exbench

abbrev Str := List Char

/-- Character-class test matching Python's `str.strip()` default. -/
def isPySpace (c : Char) : Bool :=
  c = ' ' || c = '\t' || c = '\n' || c = '\r' || c = '\x0b' || c = '\x0c'

/-- Python `s.strip()`: drop leading and trailing whitespace. -/
def trim (s : Str) : Str :=
  ((s.dropWhile isPySpace).reverse.dropWhile isPySpace).reverse

/-- Does `pat` occur at the head of `s`? -/
def startsWithL : Str → Str → Bool
  | [], _ => true
  | _ :: _, [] => false
  | a :: as, b :: bs => a == b && startsWithL as bs

/-- Python `s.replace(old, new)`, left-to-right, non-overlapping, not
rescanning replaced text.  Structural recursion on a fuel counter; one unit
of fuel is consumed per step and each step shortens the string by at least
one character (for nonempty `old`), so fuel equal to the string length is
always sufficient and the zero-fuel arm is unreachable. -/
def replaceAllFuel (old new : Str) : Nat → Str → Str
  | _, [] => []
  | 0, s => s
  | Nat.succ n, c :: rest =>
    if old ≠ [] ∧ startsWithL old (c :: rest) then
      new ++ replaceAllFuel old new n ((c :: rest).drop old.length)
    else
      c :: replaceAllFuel old new n rest

/-- Python `s.replace(old, new)` for a nonempty pattern `old` (the only way
the module calls it: the pattern is always a `\x7b\x7bkey\x7d\x7d` marker). -/
def replaceAll (old new s : Str) : Str :=
  replaceAllFuel old new s.length s

/-- Python `s.split(d)` for a one-character separator `d`. -/
def splitOnChar (d : Char) : Str → List Str
  | [] => [[]]
  | c :: rest =>
    match splitOnChar d rest with
    | [] => [[]]
    | h :: t => if c = d then [] :: h :: t else (c :: h) :: t

/-- Python `d.join(parts)` for a one-character separator `d`. -/
def joinWith (d : Char) : List Str → Str
  | [] => []
  | [s] => s
  | s :: t :: rest => s ++ d :: joinWith d (t :: rest)

/-- `provider_delimiter = "~"` (a one-character string, modelled as the
character). -/
def provider_delimiter : Char := '~'

/-- The inline `supported_providers` allow-list of `parse_model_string`
(the commented-out entries excluded). -/
def supported_providers : List Str :=
  ["ollama".toList, "anthropic".toList, "deepseek".toList,
   "openai".toList, "gemini".toList]

/-- The exceptions that can escape `run_benchmark_for_model` or its helpers,
tagged by provenance:
`unsupportedProvider` is the `ValueError` of `parse_model_string`,
`unsupportedDispatchProvider` the `ValueError` of the provider-dispatch
`else` branch, `providerFailure` an exception raised by a remote provider's
completion capability. -/
inductive RunError where
  | unsupportedProvider (provider : Str)
  | unsupportedDispatchProvider (provider : Str)
  | providerFailure (msg : Str)
deriving DecidableEq

/-- `parse_model_string`: default to ollama when no delimiter, otherwise
split on the delimiter, re-join the tail, and validate the provider. -/
def parse_model_string (model : Str) : Except RunError (Str × Str) :=
  if model.contains provider_delimiter then
    match splitOnChar provider_delimiter model with
    | [] => .error (.unsupportedProvider [])
    | provider :: model_parts =>
      let model_name := joinWith provider_delimiter model_parts
      if provider ∈ supported_providers then .ok (provider, model_name)
      else .error (.unsupportedProvider provider)
  else
    .ok ("ollama".toList, model)

/-- `BenchPromptResponse` (from `modules/data_types.py`, fields as
constructed and consumed by this module). -/
structure BenchPromptResponse where
  response : Str
  tokens_per_second : ℚ
  provider : Str
  total_duration_ms : ℚ
  load_duration_ms : ℚ
  errored : Bool
deriving DecidableEq

/-- `ExeEvalType` (from `modules/data_types.py`).  The three kinds this
module supports, plus `unsupported` standing for any other kind the enum
may name — the spec only fixes that such kinds exist and are rejected. -/
inductive ExeEvalType where
  | execute_python_code_with_num_output
  | execute_python_code_with_string_output
  | raw_string_evaluator
  | unsupported (tag : Str)
deriving DecidableEq

/-- Text form of an evaluator kind, as interpolated into the
`Unsupported evaluator` message. -/
def evalTypeName : ExeEvalType → Str
  | .execute_python_code_with_num_output =>
      "ExeEvalType.execute_python_code_with_num_output".toList
  | .execute_python_code_with_string_output =>
      "ExeEvalType.execute_python_code_with_string_output".toList
  | .raw_string_evaluator => "ExeEvalType.raw_string_evaluator".toList
  | .unsupported tag => tag

/-- One row of a benchmark file: `dynamic_variables` (an insertion-ordered
dict, modelled as an association list) and the `expectation`, already in
its `str(...)` form. -/
structure PromptRow where
  dynamic_variables : List (Str × Str)
  expectation : Str
deriving DecidableEq

/-- `ExecEvalBenchmarkFile` (from `modules/data_types.py`, fields as
consumed by this module). -/
structure ExecEvalBenchmarkFile where
  benchmark_name : Str
  purpose : Str
  base_prompt : Str
  evaluator : ExeEvalType
  prompts : List PromptRow
deriving DecidableEq

/-- `ExeEvalBenchmarkOutputResult` (from `modules/data_types.py`, fields as
constructed by `run_benchmark_for_model`). -/
structure ExeEvalBenchmarkOutputResult where
  input_prompt : Str
  prompt_response : BenchPromptResponse
  execution_result : Str
  expected_result : Str
  model : Str
  correct : Bool
  index : Nat
deriving DecidableEq

/-- `ExecEvalBenchmarkCompleteResult`: the benchmark file plus all output
results across the models that were run. -/
structure ExecEvalBenchmarkCompleteResult where
  benchmark_file : ExecEvalBenchmarkFile
  results : List ExeEvalBenchmarkOutputResult
deriving DecidableEq

/-- `ExecEvalBenchmarkModelReport` (from `modules/data_types.py`). -/
structure ExecEvalBenchmarkModelReport where
  model : Str
  results : List ExeEvalBenchmarkOutputResult
  correct_count : ℕ
  incorrect_count : ℕ
  accuracy : ℚ
  average_tokens_per_second : ℚ
  average_total_duration_ms : ℚ
  average_load_duration_ms : ℚ
deriving DecidableEq

/-- `ExecEvalBenchmarkReport` (from `modules/data_types.py`). -/
structure ExecEvalBenchmarkReport where
  benchmark_name : Str
  purpose : Str
  models : List ExecEvalBenchmarkModelReport
  overall_correct_count : ℕ
  overall_incorrect_count : ℕ
  overall_accuracy : ℚ
  average_tokens_per_second : ℚ
  average_total_duration_ms : ℚ
  average_load_duration_ms : ℚ
deriving DecidableEq

/-- The external collaborators the module calls: one completion capability
per provider (each may raise, carrying an exception message), the code
execution capability, the comparison helper `eval_result_compare`, and the
fenced-code extractor `parse_markdown_backticks` (pure). -/
structure Capabilities where
  ollama_bench : Str → Str → Except Str BenchPromptResponse
  anthropic_bench : Str → Str → Except Str BenchPromptResponse
  deepseek_bench : Str → Str → Except Str BenchPromptResponse
  openai_bench : Str → Str → Except Str BenchPromptResponse
  gemini_bench : Str → Str → Except Str BenchPromptResponse
  execute_python_code : Str → Except Str Str
  eval_result_compare : ExeEvalType → Str → Str → Except Str Bool
  parse_markdown_backticks : Str → Str

def lbrace : Char := Char.ofNat 123

def rbrace : Char := Char.ofNat 125

/-- The literal marker `\x7b\x7bkey\x7d\x7d` built by the f-string
`f"\x7b\x7b\x7b\x7b\x7bkey\x7d\x7d\x7d\x7d\x7d"`. -/
def marker (key : Str) : Str :=
  lbrace :: lbrace :: (key ++ [rbrace, rbrace])

/-- The prompt-templating loop of `run_benchmark_for_model`: for each
dynamic variable in insertion order, replace every occurrence of its marker
in the whole intermediate prompt.  (The `if prompt_row.dynamic_variables`
guard only skips an empty dict, which the fold already handles.) -/
def render_prompt (base : Str) (vars : List (Str × Str)) : Str :=
  vars.foldl (fun p kv => replaceAll (marker kv.1) kv.2 p) base

/-- The provider-dispatch `if/elif` chain of `run_benchmark_for_model`:
an ollama capability failure is caught and downgraded to an
`errored=True` response with zeroed timings and the error text as body;
remote-provider failures propagate; an unrecognized provider hits the
`else` branch's `ValueError`. -/
def dispatch_bench (caps : Capabilities) (provider prompt model_name : Str) :
    Except RunError BenchPromptResponse :=
  if provider = "ollama".toList then
    match caps.ollama_bench prompt model_name with
    | .ok r => .ok r
    | .error e =>
      .ok { response := "Error: ".toList ++ e
            tokens_per_second := 0
            provider := "ollama".toList
            total_duration_ms := 0
            load_duration_ms := 0
            errored := true }
  else if provider = "anthropic".toList then
    match caps.anthropic_bench prompt model_name with
    | .ok r => .ok r
    | .error e => .error (.providerFailure e)
  else if provider = "deepseek".toList then
    match caps.deepseek_bench prompt model_name with
    | .ok r => .ok r
    | .error e => .error (.providerFailure e)
  else if provider = "openai".toList then
    match caps.openai_bench prompt model_name with
    | .ok r => .ok r
    | .error e => .error (.providerFailure e)
  else if provider = "gemini".toList then
    match caps.gemini_bench prompt model_name with
    | .ok r => .ok r
    | .error e => .error (.providerFailure e)
  else
    .error (.unsupportedDispatchProvider provider)

/-- Message of the `ValueError` raised for an evaluator kind outside the
three supported ones. -/
def unsupported_evaluator_msg (ev : ExeEvalType) : Str :=
  "Unsupported evaluator: ".toList ++ evalTypeName ev

/-- The body of the per-prompt `try:` block: run/compare according to the
evaluator kind, returning `(execution_result, correct)`, or the message of
whatever exception was raised (including the `Unsupported evaluator`
`ValueError` of the `else` branch, which is inside the `try`). -/
def evaluate_prompt_body (caps : Capabilities) (evaluator : ExeEvalType)
    (cleaned_code expected_result : Str) : Except Str (Str × Bool) :=
  match evaluator with
  | .execute_python_code_with_num_output =>
    match caps.execute_python_code cleaned_code with
    | .error e => .error e
    | .ok execution_result =>
      let parsed_execution_result := trim execution_result
      match caps.eval_result_compare evaluator expected_result
          parsed_execution_result with
      | .error e => .error e
      | .ok correct => .ok (execution_result, correct)
  | .execute_python_code_with_string_output =>
    match caps.execute_python_code cleaned_code with
    | .error e => .error e
    | .ok execution_result =>
      match caps.eval_result_compare evaluator expected_result
          execution_result with
      | .error e => .error e
      | .ok correct => .ok (execution_result, correct)
  | .raw_string_evaluator =>
    match caps.eval_result_compare evaluator expected_result cleaned_code with
    | .error e => .error e
    | .ok correct => .ok (cleaned_code, correct)
  | ev => .error (unsupported_evaluator_msg ev)

/-- The per-prompt `try/except`: any exception from the body is caught,
its text becomes `execution_result`, and `correct` becomes `False`. -/
def evaluate_prompt (caps : Capabilities) (evaluator : ExeEvalType)
    (cleaned_code expected_result : Str) : Str × Bool :=
  match evaluate_prompt_body caps evaluator cleaned_code expected_result with
  | .ok r => r
  | .error e => (e, false)

/-- One iteration of the prompt loop of `run_benchmark_for_model`:
render the prompt, dispatch to the provider (an uncaught provider failure
escapes the whole run), extract the code, evaluate under the per-prompt
`try/except`, and build the `ExeEvalBenchmarkOutputResult`. -/
def run_prompt (caps : Capabilities) (bf : ExecEvalBenchmarkFile)
    (provider model_name model : Str) (i : Nat) (row : PromptRow) :
    Except RunError ExeEvalBenchmarkOutputResult :=
  let prompt := render_prompt bf.base_prompt row.dynamic_variables
  match dispatch_bench caps provider prompt model_name with
  | .error e => .error e
  | .ok bench_response =>
    let cleaned_code := caps.parse_markdown_backticks bench_response.response
    let expected_result := trim row.expectation
    let er := evaluate_prompt caps bf.evaluator cleaned_code expected_result
    .ok { input_prompt := prompt
          prompt_response := bench_response
          execution_result := er.1
          expected_result := expected_result
          model := model
          correct := er.2
          index := i }

/-- The `for i, prompt_row in enumerate(benchmark_file.prompts, 1)` loop:
append one result per row; an uncaught exception aborts the rest. -/
def run_rows (caps : Capabilities) (bf : ExecEvalBenchmarkFile)
    (provider model_name model : Str) :
    Nat → List PromptRow → Except RunError (List ExeEvalBenchmarkOutputResult)
  | _, [] => .ok []
  | i, row :: rest =>
    match run_prompt caps bf provider model_name model i row with
    | .error e => .error e
    | .ok r =>
      match run_rows caps bf provider model_name model (i + 1) rest with
      | .error e => .error e
      | .ok rs => .ok (r :: rs)

/-- `run_benchmark_for_model`. -/
def run_benchmark_for_model (caps : Capabilities) (model : Str)
    (benchmark_file : ExecEvalBenchmarkFile) :
    Except RunError (List ExeEvalBenchmarkOutputResult) :=
  match parse_model_string model with
  | .error e => .error e
  | .ok (provider, model_name) =>
    run_rows caps benchmark_file provider model_name model 1
      benchmark_file.prompts

/-- Python's `/`: `none` models the `ZeroDivisionError` raised when the
denominator is zero. -/
def pydiv (a b : ℚ) : Option ℚ :=
  if b = 0 then none else some (a / b)

/-- One step of the grouping loop of `generate_report`: append the result
to its model's group, creating the group at the end on first sight of the
model string. -/
def group_step (acc : List (Str × List ExeEvalBenchmarkOutputResult))
    (r : ExeEvalBenchmarkOutputResult) :
    List (Str × List ExeEvalBenchmarkOutputResult) :=
  if acc.any fun pr => pr.1 == r.model then
    acc.map fun pr => if pr.1 == r.model then (pr.1, pr.2 ++ [r]) else pr
  else
    acc ++ [(r.model, [r])]

/-- The grouping loop of `generate_report`: an insertion-ordered dict from
model string to that model's results, each new result appended to its
group. -/
def group_by_model (results : List ExeEvalBenchmarkOutputResult) :
    List (Str × List ExeEvalBenchmarkOutputResult) :=
  results.foldl group_step []

/-- The per-group statistics of `generate_report`:
counts, `accuracy = correct_count / len(results)`, and the three averaged
timing metrics; each `/` may raise `ZeroDivisionError`. -/
def mk_model_report (model : Str)
    (results : List ExeEvalBenchmarkOutputResult) :
    Option ExecEvalBenchmarkModelReport := do
  let correct_count := (results.filter fun r => r.correct).length
  let incorrect_count := results.length - correct_count
  let accuracy ← pydiv (correct_count : ℚ) (results.length : ℚ)
  let avg_tokens_per_second ←
    pydiv ((results.map fun r => r.prompt_response.tokens_per_second).sum)
      (results.length : ℚ)
  let avg_total_duration ←
    pydiv ((results.map fun r => r.prompt_response.total_duration_ms).sum)
      (results.length : ℚ)
  let avg_load_duration ←
    pydiv ((results.map fun r => r.prompt_response.load_duration_ms).sum)
      (results.length : ℚ)
  some { model := model
         results := results
         correct_count := correct_count
         incorrect_count := incorrect_count
         accuracy := accuracy
         average_tokens_per_second := avg_tokens_per_second
         average_total_duration_ms := avg_total_duration
         average_load_duration_ms := avg_load_duration }

/-- The `model_reports` loop: one `ExecEvalBenchmarkModelReport` per group,
in group order. -/
def build_model_reports :
    List (Str × List ExeEvalBenchmarkOutputResult) →
    Option (List ExecEvalBenchmarkModelReport)
  | [] => some []
  | (model, results) :: rest => do
    let mr ← mk_model_report model results
    let mrs ← build_model_reports rest
    some (mr :: mrs)

/-- One full aggregation pass of `generate_report`: group by model, build
the per-model reports, then the overall statistics —
`overall_accuracy = overall_correct / (overall_correct + overall_incorrect)`
(counts pooled across models) and the three timing metrics averaged over
the per-model means (denominator `len(model_reports)`). -/
def aggregate (cr : ExecEvalBenchmarkCompleteResult) :
    Option ExecEvalBenchmarkReport := do
  let model_reports ← build_model_reports (group_by_model cr.results)
  let overall_correct : ℕ := (model_reports.map fun r => r.correct_count).sum
  let overall_incorrect : ℕ :=
    (model_reports.map fun r => r.incorrect_count).sum
  let overall_accuracy ←
    pydiv (overall_correct : ℚ) ((overall_correct : ℚ) + (overall_incorrect : ℚ))
  let avg_tokens_per_second ←
    pydiv ((model_reports.map fun r => r.average_tokens_per_second).sum)
      (model_reports.length : ℚ)
  let avg_total_duration ←
    pydiv ((model_reports.map fun r => r.average_total_duration_ms).sum)
      (model_reports.length : ℚ)
  let avg_load_duration ←
    pydiv ((model_reports.map fun r => r.average_load_duration_ms).sum)
      (model_reports.length : ℚ)
  some { benchmark_name := cr.benchmark_file.benchmark_name
         purpose := cr.benchmark_file.purpose
         models := model_reports
         overall_correct_count := overall_correct
         overall_incorrect_count := overall_incorrect
         overall_accuracy := overall_accuracy
         average_tokens_per_second := avg_tokens_per_second
         average_total_duration_ms := avg_total_duration
         average_load_duration_ms := avg_load_duration }

/-- `generate_report`: the function body performs the whole aggregation
twice over the same input — the first pass's bindings are computed (any
`ZeroDivisionError` it raises escapes) and then shadowed by the second,
whose values populate the returned `ExecEvalBenchmarkReport`. -/
def generate_report (complete_result : ExecEvalBenchmarkCompleteResult) :
    Option ExecEvalBenchmarkReport := do
  let _dead ← aggregate complete_result
  aggregate complete_result

/-- A single aggregation pass, the §9-described re-implementation against
which `generate_report` is compared (claim C8). -/
def generate_report_single (complete_result : ExecEvalBenchmarkCompleteResult) :
    Option ExecEvalBenchmarkReport :=
  aggregate complete_result

/-- Reference semantics for simultaneous single-pass substitution: scan the
template once, left to right; at each position, if the marker of some
mapped key starts there, emit that key's value and skip past the marker,
never rescanning emitted text.  Fuel counter as in `replaceAllFuel`
(markers are nonempty, so fuel equal to the string length suffices). -/
def simultaneousSubstFuel (vars : List (Str × Str)) :
    Nat → Str → Str
  | _, [] => []
  | 0, s => s
  | Nat.succ n, c :: rest =>
    match vars.find? fun kv => startsWithL (marker kv.1) (c :: rest) with
    | some kv =>
      kv.2 ++ simultaneousSubstFuel vars n ((c :: rest).drop (marker kv.1).length)
    | none => c :: simultaneousSubstFuel vars n rest

/-- Simultaneous single-pass substitution of all mapped markers into the
original template (the comparison semantics of claim C10). -/
def simultaneous_subst (vars : List (Str × Str)) (s : Str) : Str :=
  simultaneousSubstFuel vars s.length s

/-- Sum over the groups of the number of results satisfying `q`. -/
def groupCountP (q : ExeEvalBenchmarkOutputResult → Bool)
    (gs : List (Str × List ExeEvalBenchmarkOutputResult)) : ℕ :=
  (gs.map fun pr => pr.2.countP q).sum

/-- The grouping dict's keys are pairwise distinct. -/
def KeysDistinct (gs : List (Str × List ExeEvalBenchmarkOutputResult)) : Prop :=
  gs.Pairwise fun a b => a.1 ≠ b.1

section WitnessInputs

/-- A fixed successful completion response used as concrete test input. -/
def okResponse : BenchPromptResponse :=
  { response := "print(4)".toList
    tokens_per_second := 1
    provider := "ollama".toList
    total_duration_ms := 2
    load_duration_ms := 3
    errored := false }

/-- Capabilities whose every call succeeds. -/
def okCaps : Capabilities :=
  { ollama_bench := fun _ _ => .ok okResponse
    anthropic_bench := fun _ _ => .ok okResponse
    deepseek_bench := fun _ _ => .ok okResponse
    openai_bench := fun _ _ => .ok okResponse
    gemini_bench := fun _ _ => .ok okResponse
    execute_python_code := fun _ => .ok "4".toList
    eval_result_compare := fun _ _ _ => .ok true
    parse_markdown_backticks := fun s => s }

/-- Capabilities where code execution raises. -/
def execFailCaps : Capabilities :=
  { okCaps with execute_python_code := fun _ => .error "boom".toList }

/-- Capabilities where every provider's completion call raises. -/
def allFailCaps : Capabilities :=
  { okCaps with
    ollama_bench := fun _ _ => .error "boom".toList
    anthropic_bench := fun _ _ => .error "boom".toList
    deepseek_bench := fun _ _ => .error "boom".toList
    openai_bench := fun _ _ => .error "boom".toList
    gemini_bench := fun _ _ => .error "boom".toList }

/-- A prompt row with no dynamic variables and expectation `"4"`. -/
def row4 : PromptRow := { dynamic_variables := [], expectation := "4".toList }

/-- A two-row benchmark file with the raw-string evaluator. -/
def bfRaw : ExecEvalBenchmarkFile :=
  { benchmark_name := "bench".toList
    purpose := "purp".toList
    base_prompt := "base".toList
    evaluator := .raw_string_evaluator
    prompts := [row4, row4] }

/-- A one-row benchmark file with the string-output evaluator. -/
def bfString : ExecEvalBenchmarkFile :=
  { bfRaw with
    evaluator := .execute_python_code_with_string_output
    prompts := [row4] }

/-- A one-row benchmark file naming an evaluator kind outside the three
supported ones. -/
def bfBogus : ExecEvalBenchmarkFile :=
  { bfRaw with
    evaluator := .unsupported "bogus".toList
    prompts := [row4] }

/-- An output result with fixed filler fields, for report inputs. -/
def mkRes (m : Str) (c : Bool) (i : Nat) : ExeEvalBenchmarkOutputResult :=
  { input_prompt := []
    prompt_response := okResponse
    execution_result := []
    expected_result := []
    model := m
    correct := c
    index := i }

/-- A complete result over two models: model `a` with 3 of 4 correct and
model `b` with 2 of 2 correct (the spec's §8 aggregation example). -/
def crTwoModels : ExecEvalBenchmarkCompleteResult :=
  { benchmark_file := bfRaw
    results :=
      [mkRes "a".toList true 1, mkRes "a".toList true 2,
       mkRes "a".toList true 3, mkRes "a".toList false 4,
       mkRes "b".toList true 1, mkRes "b".toList true 2] }

/-- A complete result with a single correct result for one model. -/
def crOne : ExecEvalBenchmarkCompleteResult :=
  { benchmark_file := bfRaw, results := [mkRes "m".toList true 1] }

/-- The report `generate_report` produces for `crOne`. -/
def repOne : ExecEvalBenchmarkReport :=
  { benchmark_name := "bench".toList
    purpose := "purp".toList
    models :=
      [{ model := "m".toList
         results := [mkRes "m".toList true 1]
         correct_count := 1
         incorrect_count := 0
         accuracy := 1
         average_tokens_per_second := 1
         average_total_duration_ms := 2
         average_load_duration_ms := 3 }]
    overall_correct_count := 1
    overall_incorrect_count := 0
    overall_accuracy := 1
    average_tokens_per_second := 1
    average_total_duration_ms := 2
    average_load_duration_ms := 3 }

end WitnessInputs

end Exbench

deriving instance DecidableEq for Except

namespace Exbench

theorem splitOnChar_ne_nil (d : Char) (s : Str) : splitOnChar d s ≠ [] := by
  cases s with
  | nil => simp [splitOnChar]
  | cons c rest =>
    simp only [splitOnChar]
    cases h : splitOnChar d rest with
    | nil => simp
    | cons hd tl =>
      simp only []
      split <;> simp

theorem joinWith_splitOnChar (d : Char) (s : Str) :
    joinWith d (splitOnChar d s) = s := by
  induction s with
  | nil => rfl
  | cons c rest ih =>
    simp only [splitOnChar]
    cases h : splitOnChar d rest with
    | nil => exact absurd h (splitOnChar_ne_nil d rest)
    | cons hd tl =>
      rw [h] at ih
      simp only []
      by_cases hc : c = d
      · subst hc
        simp [joinWith, ih]
      · rw [if_neg hc]
        cases tl with
        | nil =>
          simp [joinWith] at ih
          simp [joinWith, ih]
        | cons t1 t2 =>
          simp [joinWith] at ih ⊢
          simp [ih]

theorem two_le_splitOnChar_length (d : Char) (s : Str)
    (h : s.contains d = true) : 2 ≤ (splitOnChar d s).length := by
  induction s with
  | nil => simp [List.contains] at h
  | cons c rest ih =>
    simp only [splitOnChar]
    cases hs : splitOnChar d rest with
    | nil => exact absurd hs (splitOnChar_ne_nil d rest)
    | cons hd tl =>
      simp only []
      by_cases hc : c = d
      · simp [hc]
      · rw [if_neg hc]
        have h' : rest.contains d = true := by
          simp only [List.contains_cons, Bool.or_eq_true, beq_iff_eq] at h
          rcases h with h | h
          · exact absurd h.symm hc
          · exact h
        have h2 := ih h'
        rw [hs] at h2
        simp at h2 ⊢
        omega

/-- C7: if the model string contains the provider delimiter, the text
before the first delimiter is a supported provider (so that
`parse_model_string` succeeds), and the model-name remainder contains no
further delimiter, then the parse round-trips:
`provider ++ delimiter ++ name` equals the original string. -/
theorem C7_parse_round_trip (model p n : Str)
    (hc : model.contains provider_delimiter = true)
    (hp : parse_model_string model = .ok (p, n))
    (hn : n.contains provider_delimiter = false) :
    p ++ provider_delimiter :: n = model := by
  unfold parse_model_string at hp
  rw [if_pos hc] at hp
  cases hs : splitOnChar provider_delimiter model with
  | nil => exact absurd hs (splitOnChar_ne_nil _ _)
  | cons provider parts =>
    rw [hs] at hp
    simp only [] at hp
    by_cases hm : provider ∈ supported_providers
    · rw [if_pos hm] at hp
      simp only [Except.ok.injEq, Prod.mk.injEq] at hp
      obtain ⟨h1, h2⟩ := hp
      subst h1
      subst h2
      have hj := joinWith_splitOnChar provider_delimiter model
      rw [hs] at hj
      have h2l := two_le_splitOnChar_length provider_delimiter model hc
      rw [hs] at h2l
      cases parts with
      | nil => simp at h2l
      | cons q t => simpa [joinWith] using hj
    · rw [if_neg hm] at hp
      exact absurd hp (by simp)

/-- Witness for C7 at the concrete model string `"anthropic~m"`. -/
theorem C7_parse_round_trip_witness :
    "anthropic".toList ++ provider_delimiter :: "m".toList =
      "anthropic~m".toList :=
  C7_parse_round_trip "anthropic~m".toList "anthropic".toList "m".toList
    (by decide) (by decide) (by decide)

theorem parse_provider_mem (model p n : Str)
    (hp : parse_model_string model = .ok (p, n)) :
    p ∈ supported_providers := by
  unfold parse_model_string at hp
  by_cases hc : model.contains provider_delimiter = true
  · rw [if_pos hc] at hp
    cases hs : splitOnChar provider_delimiter model with
    | nil => rw [hs] at hp; simp at hp
    | cons provider parts =>
      rw [hs] at hp
      simp only [] at hp
      by_cases hm : provider ∈ supported_providers
      · rw [if_pos hm] at hp
        simp only [Except.ok.injEq, Prod.mk.injEq] at hp
        rw [← hp.1]
        exact hm
      · rw [if_neg hm] at hp
        simp at hp
  · rw [if_neg hc] at hp
    simp only [Except.ok.injEq, Prod.mk.injEq] at hp
    rw [← hp.1]
    simp [supported_providers]

/-- C9: whenever `parse_model_string` returns without error, the provider
it returns is one of the five recognized tags, and the dispatch-time
`Unsupported model provider` branch of `run_benchmark_for_model` can never
fire for it, whatever the capabilities, prompt, or claimed tag. -/
theorem C9_parse_time_allowlist (model p n : Str)
    (hp : parse_model_string model = .ok (p, n)) :
    p ∈ supported_providers ∧
      ∀ (caps : Capabilities) (prompt q : Str),
        dispatch_bench caps p prompt n ≠
          .error (.unsupportedDispatchProvider q) := by
  have hmem := parse_provider_mem model p n hp
  refine ⟨hmem, ?_⟩
  intro caps prompt q
  simp only [supported_providers, List.mem_cons, List.mem_singleton,
    List.not_mem_nil, or_false] at hmem
  rcases hmem with h | h | h | h | h <;> subst h <;> unfold dispatch_bench
  · rw [if_pos rfl]
    cases caps.ollama_bench prompt n <;> simp
  · rw [if_neg (by decide), if_pos rfl]
    cases caps.anthropic_bench prompt n <;> simp
  · rw [if_neg (by decide), if_neg (by decide), if_pos rfl]
    cases caps.deepseek_bench prompt n <;> simp
  · rw [if_neg (by decide), if_neg (by decide), if_neg (by decide),
      if_pos rfl]
    cases caps.openai_bench prompt n <;> simp
  · rw [if_neg (by decide), if_neg (by decide), if_neg (by decide),
      if_neg (by decide), if_pos rfl]
    cases caps.gemini_bench prompt n <;> simp

/-- Witness for C9 at the delimiterless model string `"m"`, which parses
to the default ollama provider. -/
theorem C9_parse_time_allowlist_witness :
    "ollama".toList ∈ supported_providers ∧
      dispatch_bench okCaps "ollama".toList "p".toList "m".toList ≠
        .error (.unsupportedDispatchProvider "x".toList) :=
  ⟨(C9_parse_time_allowlist "m".toList "ollama".toList "m".toList
      (by decide)).1,
   (C9_parse_time_allowlist "m".toList "ollama".toList "m".toList
      (by decide)).2 okCaps "p".toList "x".toList⟩

/-- C6: when the completion capability raises, the ollama (local-inference)
dispatch branch catches the failure and returns a `CompletionResponse` with
`errored=true`, all three timing fields zero, and the error text embedded
in the response body, so the run continues; each remote provider's branch
leaves the failure uncaught, and it propagates to the caller. -/
theorem C6_provider_failure_policy (caps : Capabilities)
    (prompt model_name e : Str)
    (ho : caps.ollama_bench prompt model_name = .error e)
    (ha : caps.anthropic_bench prompt model_name = .error e)
    (hd : caps.deepseek_bench prompt model_name = .error e)
    (hoa : caps.openai_bench prompt model_name = .error e)
    (hg : caps.gemini_bench prompt model_name = .error e) :
    dispatch_bench caps "ollama".toList prompt model_name =
        .ok { response := "Error: ".toList ++ e
              tokens_per_second := 0
              provider := "ollama".toList
              total_duration_ms := 0
              load_duration_ms := 0
              errored := true } ∧
      dispatch_bench caps "anthropic".toList prompt model_name =
        .error (.providerFailure e) ∧
      dispatch_bench caps "deepseek".toList prompt model_name =
        .error (.providerFailure e) ∧
      dispatch_bench caps "openai".toList prompt model_name =
        .error (.providerFailure e) ∧
      dispatch_bench caps "gemini".toList prompt model_name =
        .error (.providerFailure e) := by
  refine ⟨?_, ?_, ?_, ?_, ?_⟩ <;> unfold dispatch_bench
  · rw [if_pos rfl, ho]
  · rw [if_neg (by decide), if_pos rfl, ha]
  · rw [if_neg (by decide), if_neg (by decide), if_pos rfl, hd]
  · rw [if_neg (by decide), if_neg (by decide), if_neg (by decide),
      if_pos rfl, hoa]
  · rw [if_neg (by decide), if_neg (by decide), if_neg (by decide),
      if_neg (by decide), if_pos rfl, hg]

/-- Witness for C6 at capabilities whose every completion call raises
`"boom"`. -/
theorem C6_provider_failure_policy_witness :
    dispatch_bench allFailCaps "ollama".toList "p".toList "m".toList =
        .ok { response := "Error: boom".toList
              tokens_per_second := 0
              provider := "ollama".toList
              total_duration_ms := 0
              load_duration_ms := 0
              errored := true } ∧
      dispatch_bench allFailCaps "anthropic".toList "p".toList "m".toList =
        .error (.providerFailure "boom".toList) ∧
      dispatch_bench allFailCaps "deepseek".toList "p".toList "m".toList =
        .error (.providerFailure "boom".toList) ∧
      dispatch_bench allFailCaps "openai".toList "p".toList "m".toList =
        .error (.providerFailure "boom".toList) ∧
      dispatch_bench allFailCaps "gemini".toList "p".toList "m".toList =
        .error (.providerFailure "boom".toList) :=
  C6_provider_failure_policy allFailCaps "p".toList "m".toList
    "boom".toList rfl rfl rfl rfl rfl

theorem run_prompt_ok (caps : Capabilities) (bf : ExecEvalBenchmarkFile)
    (provider model_name model : Str) (i : Nat) (row : PromptRow)
    (resp : BenchPromptResponse)
    (hresp : dispatch_bench caps provider
        (render_prompt bf.base_prompt row.dynamic_variables) model_name =
      .ok resp) :
    run_prompt caps bf provider model_name model i row =
      .ok { input_prompt := render_prompt bf.base_prompt row.dynamic_variables
            prompt_response := resp
            execution_result :=
              (evaluate_prompt caps bf.evaluator
                (caps.parse_markdown_backticks resp.response)
                (trim row.expectation)).1
            expected_result := trim row.expectation
            model := model
            correct :=
              (evaluate_prompt caps bf.evaluator
                (caps.parse_markdown_backticks resp.response)
                (trim row.expectation)).2
            index := i } := by
  simp only [run_prompt]
  rw [hresp]

theorem run_rows_map_length_indices (caps : Capabilities)
    (bf : ExecEvalBenchmarkFile) (provider model_name model : Str)
    (hall : ∀ prompt, ∃ r,
      dispatch_bench caps provider prompt model_name = .ok r) :
    ∀ (rows : List PromptRow) (i : Nat),
      (run_rows caps bf provider model_name model i rows).map
          (fun rs => (rs.length, rs.map fun r => r.index)) =
        .ok (rows.length, List.range' i rows.length) := by
  intro rows
  induction rows with
  | nil =>
    intro i
    simp [run_rows, Except.map, List.range']
  | cons row rest ih =>
    intro i
    obtain ⟨resp, hresp⟩ :=
      hall (render_prompt bf.base_prompt row.dynamic_variables)
    have hr := run_prompt_ok caps bf provider model_name model i row resp hresp
    simp only [run_rows]
    rw [hr]
    simp only []
    have hih := ih (i + 1)
    cases hrest : run_rows caps bf provider model_name model (i + 1) rest with
    | error e =>
      rw [hrest] at hih
      simp [Except.map] at hih
    | ok rs =>
      rw [hrest] at hih
      simp only [Except.map, Except.ok.injEq, Prod.mk.injEq] at hih
      obtain ⟨hlen, hidx⟩ := hih
      simp [Except.map, List.range'_succ, hlen, hidx]

/-- C4: for a benchmark file with N prompt rows and a model string that
parses, if the provider is ollama or every dispatch for this model
returns normally, `run_benchmark_for_model` returns exactly N results
whose index fields are `1..N` in prompt order. -/
theorem C4_run_length_and_indices (caps : Capabilities) (model : Str)
    (bf : ExecEvalBenchmarkFile) (provider model_name : Str)
    (hp : parse_model_string model = .ok (provider, model_name))
    (hok : provider = "ollama".toList ∨
      ∀ prompt, ∃ r,
        dispatch_bench caps provider prompt model_name = .ok r) :
    (run_benchmark_for_model caps model bf).map
        (fun rs => (rs.length, rs.map fun r => r.index)) =
      .ok (bf.prompts.length, List.range' 1 bf.prompts.length) := by
  have hall : ∀ prompt, ∃ r,
      dispatch_bench caps provider prompt model_name = .ok r := by
    rcases hok with h | h
    · subst h
      intro prompt
      unfold dispatch_bench
      rw [if_pos rfl]
      cases caps.ollama_bench prompt model_name with
      | ok r => exact ⟨r, rfl⟩
      | error e => exact ⟨_, rfl⟩
    · exact h
  unfold run_benchmark_for_model
  rw [hp]
  exact run_rows_map_length_indices caps bf provider model_name model hall
    bf.prompts 1

/-- Witness for C4: a two-prompt benchmark under the default ollama
provider yields two results with indices `[1, 2]`. -/
theorem C4_run_length_and_indices_witness :
    (run_benchmark_for_model okCaps "m".toList bfRaw).map
        (fun rs => (rs.length, rs.map fun r => r.index)) =
      .ok (bfRaw.prompts.length, List.range' 1 bfRaw.prompts.length) :=
  C4_run_length_and_indices okCaps "m".toList bfRaw "ollama".toList
    "m".toList (by decide) (Or.inl rfl)

/-- C5: when extraction/execution/evaluation of one prompt raises, the
exception is caught at that prompt's scope — the appended result has
`correct=false` and the error text as `execution_result` — and the loop
continues with the remaining prompts. -/
theorem C5_prompt_error_contained (caps : Capabilities)
    (bf : ExecEvalBenchmarkFile) (provider model_name model : Str)
    (i : Nat) (row : PromptRow) (rest : List PromptRow)
    (resp : BenchPromptResponse) (e : Str)
    (hresp : dispatch_bench caps provider
        (render_prompt bf.base_prompt row.dynamic_variables) model_name =
      .ok resp)
    (herr : evaluate_prompt_body caps bf.evaluator
        (caps.parse_markdown_backticks resp.response)
        (trim row.expectation) = .error e) :
    run_prompt caps bf provider model_name model i row =
      .ok { input_prompt := render_prompt bf.base_prompt row.dynamic_variables
            prompt_response := resp
            execution_result := e
            expected_result := trim row.expectation
            model := model
            correct := false
            index := i } ∧
    run_rows caps bf provider model_name model i (row :: rest) =
      (run_rows caps bf provider model_name model (i + 1) rest).map
        (fun rs =>
          { input_prompt := render_prompt bf.base_prompt row.dynamic_variables
            prompt_response := resp
            execution_result := e
            expected_result := trim row.expectation
            model := model
            correct := false
            index := i } :: rs) := by
  have h1 : run_prompt caps bf provider model_name model i row =
      .ok { input_prompt := render_prompt bf.base_prompt row.dynamic_variables
            prompt_response := resp
            execution_result := e
            expected_result := trim row.expectation
            model := model
            correct := false
            index := i } := by
    rw [run_prompt_ok caps bf provider model_name model i row resp hresp]
    simp [evaluate_prompt, herr]
  refine ⟨h1, ?_⟩
  simp only [run_rows]
  rw [h1]
  simp only []
  cases hrest : run_rows caps bf provider model_name model (i + 1) rest <;>
    simp [Except.map]

/-- Witness for C5: code execution raising `"boom"` under the
string-output evaluator is recorded as an incorrect result and the run
goes on. -/
theorem C5_prompt_error_contained_witness :
    run_prompt execFailCaps bfString "ollama".toList "m".toList "m".toList
        1 row4 =
      .ok { input_prompt :=
              render_prompt bfString.base_prompt row4.dynamic_variables
            prompt_response := okResponse
            execution_result := "boom".toList
            expected_result := trim row4.expectation
            model := "m".toList
            correct := false
            index := 1 } ∧
    run_rows execFailCaps bfString "ollama".toList "m".toList "m".toList
        1 [row4] =
      (run_rows execFailCaps bfString "ollama".toList "m".toList "m".toList
          2 []).map
        (fun rs =>
          { input_prompt :=
              render_prompt bfString.base_prompt row4.dynamic_variables
            prompt_response := okResponse
            execution_result := "boom".toList
            expected_result := trim row4.expectation
            model := "m".toList
            correct := false
            index := 1 } :: rs) :=
  C5_prompt_error_contained execFailCaps bfString "ollama".toList
    "m".toList "m".toList 1 row4 [] okResponse "boom".toList rfl rfl

theorem run_rows_unsupported_evaluator (caps : Capabilities)
    (bf : ExecEvalBenchmarkFile) (provider model_name model tag : Str)
    (hev : bf.evaluator = .unsupported tag)
    (hall : ∀ prompt, ∃ r,
      dispatch_bench caps provider prompt model_name = .ok r) :
    ∀ (rows : List PromptRow) (i : Nat),
      (run_rows caps bf provider model_name model i rows).map
          (fun rs => rs.map fun r => (r.correct, r.execution_result)) =
        .ok (List.replicate rows.length
          (false, unsupported_evaluator_msg (.unsupported tag))) := by
  intro rows
  induction rows with
  | nil =>
    intro i
    simp [run_rows, Except.map]
  | cons row rest ih =>
    intro i
    obtain ⟨resp, hresp⟩ :=
      hall (render_prompt bf.base_prompt row.dynamic_variables)
    have hr := run_prompt_ok caps bf provider model_name model i row resp hresp
    rw [hev] at hr
    simp only [run_rows]
    rw [hr]
    simp only []
    have hih := ih (i + 1)
    cases hrest : run_rows caps bf provider model_name model (i + 1) rest with
    | error e =>
      rw [hrest] at hih
      simp [Except.map] at hih
    | ok rs =>
      rw [hrest] at hih
      simp only [Except.map, Except.ok.injEq] at hih
      simp [Except.map, List.replicate_succ, hih, evaluate_prompt,
        evaluate_prompt_body]

/-- C2 counterexample: a benchmark file naming an evaluator kind outside
the three supported ones does NOT abort the run with a surfaced error —
`run_benchmark_for_model` returns normally, with the
`Unsupported evaluator` message recorded as an ordinary incorrect
per-prompt result. -/
theorem C2_counterexample :
    (run_benchmark_for_model okCaps "m".toList bfBogus).map
        (fun rs => rs.map fun r => (r.correct, r.execution_result)) =
      .ok [(false, unsupported_evaluator_msg (.unsupported "bogus".toList))] := by
  decide

/-- C2 amended: for a benchmark file whose evaluator kind is none of the
three supported kinds, the `Unsupported evaluator` `ValueError` is raised
inside the per-prompt `try` block and is therefore caught at prompt scope:
the run completes normally, and every one of the N prompts is recorded as
an incorrect result whose `execution_result` is the error text. -/
theorem C2_unsupported_evaluator_recorded (caps : Capabilities)
    (model : Str) (bf : ExecEvalBenchmarkFile)
    (provider model_name tag : Str)
    (hev : bf.evaluator = .unsupported tag)
    (hp : parse_model_string model = .ok (provider, model_name))
    (hok : provider = "ollama".toList ∨
      ∀ prompt, ∃ r,
        dispatch_bench caps provider prompt model_name = .ok r) :
    (run_benchmark_for_model caps model bf).map
        (fun rs => rs.map fun r => (r.correct, r.execution_result)) =
      .ok (List.replicate bf.prompts.length
        (false, unsupported_evaluator_msg (.unsupported tag))) := by
  have hall : ∀ prompt, ∃ r,
      dispatch_bench caps provider prompt model_name = .ok r := by
    rcases hok with h | h
    · subst h
      intro prompt
      unfold dispatch_bench
      rw [if_pos rfl]
      cases caps.ollama_bench prompt model_name with
      | ok r => exact ⟨r, rfl⟩
      | error e => exact ⟨_, rfl⟩
    · exact h
  unfold run_benchmark_for_model
  rw [hp]
  exact run_rows_unsupported_evaluator caps bf provider model_name model
    tag hev hall bf.prompts 1

/-- Witness for the amended C2 at the one-prompt benchmark file with
evaluator tag `"bogus"`. -/
theorem C2_unsupported_evaluator_recorded_witness :
    (run_benchmark_for_model okCaps "m".toList bfBogus).map
        (fun rs => rs.map fun r => (r.correct, r.execution_result)) =
      .ok (List.replicate bfBogus.prompts.length
        (false, unsupported_evaluator_msg (.unsupported "bogus".toList))) :=
  C2_unsupported_evaluator_recorded okCaps "m".toList bfBogus
    "ollama".toList "m".toList "bogus".toList rfl (by decide) (Or.inl rfl)

/-- C8: the duplicated aggregation pass inside `generate_report` is dead
work — on every input on which `generate_report` is defined (and also on
every input on which it raises), its result equals that of the single
aggregation pass. -/
theorem C8_single_pass_equivalence (cr : ExecEvalBenchmarkCompleteResult) :
    generate_report cr = generate_report_single cr := by
  unfold generate_report generate_report_single
  cases h : aggregate cr <;> simp [h]

/-- C3: evaluating the code at the failing input — `generate_report` on a
`CompleteResult` with zero results raises `ZeroDivisionError` (modelled as
`none`) while computing `overall_accuracy = 0 / (0 + 0)`, instead of
returning a sentinel value as the claim requires. -/
theorem C3_empty_results_division_error (bf : ExecEvalBenchmarkFile) :
    generate_report { benchmark_file := bf, results := [] } = none := by
  simp [generate_report, aggregate, build_model_reports, group_by_model,
    pydiv]

/-- C10: templating substitutes one key at a time over the whole
intermediate string, so a marker introduced by an earlier key's value is
itself replaced when its key comes later: template `{{a}}` with
`a ↦ {{b}}`, `b ↦ X` renders to `X` sequentially, while simultaneous
single-pass substitution of the original template yields `{{b}}` — the
two semantics differ on this input. -/
theorem C10_sequential_templating :
    render_prompt (marker "a".toList)
        [("a".toList, marker "b".toList), ("b".toList, "X".toList)] =
      "X".toList ∧
    simultaneous_subst
        [("a".toList, marker "b".toList), ("b".toList, "X".toList)]
        (marker "a".toList) =
      marker "b".toList ∧
    render_prompt (marker "a".toList)
        [("a".toList, marker "b".toList), ("b".toList, "X".toList)] ≠
      simultaneous_subst
        [("a".toList, marker "b".toList), ("b".toList, "X".toList)]
        (marker "a".toList) :=
  ⟨by decide, by decide, by decide⟩

theorem map_id_of_eq {α : Type} (f : α → α) :
    ∀ (l : List α), (∀ a ∈ l, f a = a) → l.map f = l := by
  intro l
  induction l with
  | nil => intro _; rfl
  | cons a t ih =>
    intro h
    rw [List.map_cons, h a (by simp), ih fun b hb => h b (by simp [hb])]

theorem upd_fst (r : ExeEvalBenchmarkOutputResult)
    (x : Str × List ExeEvalBenchmarkOutputResult) :
    (if x.1 == r.model then (x.1, x.2 ++ [r]) else x).1 = x.1 := by
  split <;> rfl

theorem group_step_keys (acc : List (Str × List ExeEvalBenchmarkOutputResult))
    (r : ExeEvalBenchmarkOutputResult) (hk : KeysDistinct acc) :
    KeysDistinct (group_step acc r) := by
  unfold group_step
  split
  · rw [KeysDistinct, List.pairwise_map]
    exact hk.imp fun {a b} hne => by
      rw [upd_fst, upd_fst]
      exact hne
  · rename_i h
    rw [KeysDistinct, List.pairwise_append]
    refine ⟨hk, List.pairwise_singleton _ _, ?_⟩
    intro x hx y hy
    simp only [List.mem_singleton] at hy
    subst hy
    intro hxe
    exact h (List.any_eq_true.mpr ⟨x, hx, by simp [hxe]⟩)

theorem groupCountP_update (q : ExeEvalBenchmarkOutputResult → Bool)
    (r : ExeEvalBenchmarkOutputResult) :
    ∀ (acc : List (Str × List ExeEvalBenchmarkOutputResult)),
      KeysDistinct acc →
      (acc.any fun pr => pr.1 == r.model) = true →
      groupCountP q (acc.map fun pr =>
          if pr.1 == r.model then (pr.1, pr.2 ++ [r]) else pr) =
        groupCountP q acc + (if q r then 1 else 0) := by
  intro acc
  induction acc with
  | nil =>
    intro _ h
    simp at h
  | cons pr acc' ih =>
    intro hk hany
    rw [KeysDistinct, List.pairwise_cons] at hk
    obtain ⟨hne, hk'⟩ := hk
    by_cases hb : (pr.1 == r.model) = true
    · have hprm : pr.1 = r.model := by simpa using hb
      have hmap : acc'.map (fun x =>
          if x.1 == r.model then (x.1, x.2 ++ [r]) else x) = acc' := by
        apply map_id_of_eq
        intro x hx
        have : (x.1 == r.model) = false := by
          simp only [beq_eq_false_iff_ne, ne_eq]
          intro hxm
          exact hne x hx (hprm.trans hxm.symm)
        simp [this]
      simp only [List.map_cons, if_pos hb, hmap, groupCountP,
        List.sum_cons, List.countP_append, List.countP_cons,
        List.countP_nil]
      omega
    · have hany' : (acc'.any fun pr => pr.1 == r.model) = true := by
        simp only [List.any_cons, Bool.or_eq_true] at hany
        rcases hany with h | h
        · exact absurd h hb
        · exact h
      have hih := ih hk' hany'
      simp only [List.map_cons, if_neg hb, groupCountP, List.sum_cons] at hih ⊢
      omega

theorem groupCountP_step (q : ExeEvalBenchmarkOutputResult → Bool)
    (acc : List (Str × List ExeEvalBenchmarkOutputResult))
    (r : ExeEvalBenchmarkOutputResult) (hk : KeysDistinct acc) :
    groupCountP q (group_step acc r) =
      groupCountP q acc + (if q r then 1 else 0) := by
  unfold group_step
  split
  · rename_i h
    exact groupCountP_update q r acc hk h
  · simp [groupCountP, List.countP_cons]

theorem foldl_group_step_keys :
    ∀ (l : List ExeEvalBenchmarkOutputResult)
      (acc : List (Str × List ExeEvalBenchmarkOutputResult)),
      KeysDistinct acc → KeysDistinct (l.foldl group_step acc) := by
  intro l
  induction l with
  | nil =>
    intro acc h
    exact h
  | cons r t ih =>
    intro acc h
    exact ih _ (group_step_keys acc r h)

theorem foldl_group_step_countP (q : ExeEvalBenchmarkOutputResult → Bool) :
    ∀ (l : List ExeEvalBenchmarkOutputResult)
      (acc : List (Str × List ExeEvalBenchmarkOutputResult)),
      KeysDistinct acc →
      groupCountP q (l.foldl group_step acc) =
        groupCountP q acc + l.countP q := by
  intro l
  induction l with
  | nil =>
    intro acc h
    simp
  | cons r t ih =>
    intro acc h
    simp only [List.foldl_cons, List.countP_cons]
    rw [ih _ (group_step_keys acc r h), groupCountP_step q acc r h]
    omega

theorem group_by_model_countP (q : ExeEvalBenchmarkOutputResult → Bool)
    (results : List ExeEvalBenchmarkOutputResult) :
    groupCountP q (group_by_model results) = results.countP q := by
  unfold group_by_model
  rw [foldl_group_step_countP q results [] (by simp [KeysDistinct])]
  simp [groupCountP]

theorem countP_const_true {α : Type} (l : List α) :
    l.countP (fun _ => true) = l.length := by
  induction l with
  | nil => rfl
  | cons a t ih => simp [List.countP_cons, ih]

theorem group_by_model_total_length
    (results : List ExeEvalBenchmarkOutputResult) :
    ((group_by_model results).map fun pr => pr.2.length).sum =
      results.length := by
  have h := group_by_model_countP (fun _ => true) results
  simp only [groupCountP, countP_const_true] at h
  exact h

theorem sum_map_add_nat {α : Type} (f g : α → ℕ) (l : List α) :
    (l.map fun a => f a + g a).sum = (l.map f).sum + (l.map g).sum := by
  induction l with
  | nil => rfl
  | cons a t ih =>
    simp only [List.map_cons, List.sum_cons, ih]
    omega

theorem mk_model_report_counts (model : Str)
    (results : List ExeEvalBenchmarkOutputResult)
    (mr : ExecEvalBenchmarkModelReport)
    (h : mk_model_report model results = some mr) :
    mr.correct_count = results.countP (fun r => r.correct) ∧
      mr.correct_count + mr.incorrect_count = results.length := by
  unfold mk_model_report at h
  simp only [bind, Option.bind_eq_some, Option.some.injEq] at h
  obtain ⟨a1, h1, a2, h2, a3, h3, a4, h4, h⟩ := h
  subst h
  have hle : (results.filter fun r => r.correct).length ≤ results.length :=
    List.length_filter_le _ _
  constructor
  · simp [List.countP_eq_length_filter]
  · simp only []
    omega

theorem build_model_reports_counts :
    ∀ (gs : List (Str × List ExeEvalBenchmarkOutputResult))
      (mrs : List ExecEvalBenchmarkModelReport),
      build_model_reports gs = some mrs →
      (mrs.map fun mr => mr.correct_count) =
          (gs.map fun pr => pr.2.countP fun r => r.correct) ∧
        (mrs.map fun mr => mr.correct_count + mr.incorrect_count) =
          (gs.map fun pr => pr.2.length) := by
  intro gs
  induction gs with
  | nil =>
    intro mrs h
    simp only [build_model_reports, Option.some.injEq] at h
    subst h
    simp
  | cons pr t ih =>
    intro mrs h
    obtain ⟨m, res⟩ := pr
    simp only [build_model_reports, bind, Option.bind_eq_some,
      Option.some.injEq] at h
    obtain ⟨mr, hmr, mrs', hmrs', h⟩ := h
    subst h
    obtain ⟨hc, hl⟩ := ih mrs' hmrs'
    obtain ⟨hc1, hl1⟩ := mk_model_report_counts m res mr hmr
    refine ⟨?_, ?_⟩ <;> simp only [List.map_cons]
    · rw [hc1, hc]
    · rw [hl1, hl]

/-- C1 counterexample: on the spec's own §8 example — model `a` with 3 of
4 correct and model `b` with 2 of 2 correct — `generate_report` computes
`overall_accuracy` as the pooled ratio `5/6`, not the equal-weight mean of
per-model accuracies `0.875`. -/
theorem C1_counterexample :
    (generate_report crTwoModels).map (fun rep => rep.overall_accuracy) =
        some (5 / 6 : ℚ) ∧
      (5 / 6 : ℚ) ≠ (875 / 1000 : ℚ) := by
  constructor
  · simp [generate_report, aggregate, build_model_reports, mk_model_report,
      group_by_model, group_step, pydiv, crTwoModels, mkRes, okResponse]
    norm_num
  · norm_num

/-- C1 amended: whenever `generate_report` returns a report, its
`overall_accuracy` is the pooled ratio of summed correct counts to the
total number of results across all models — a result-weighted mean, not
the equal-weight mean of per-model accuracies (only the three overall
timing metrics are means of per-model means). -/
theorem C1_overall_accuracy_pooled (cr : ExecEvalBenchmarkCompleteResult)
    (rep : ExecEvalBenchmarkReport)
    (h : generate_report cr = some rep) :
    rep.overall_accuracy =
      ((cr.results.countP fun r => r.correct : ℕ) : ℚ) /
        (cr.results.length : ℚ) := by
  have hagg : aggregate cr = some rep := by
    unfold generate_report at h
    cases ha : aggregate cr with
    | none =>
      rw [ha] at h
      simp [bind] at h
    | some v =>
      rw [ha] at h
      simpa [bind] using h
  unfold aggregate at hagg
  simp only [bind, Option.bind_eq_some, Option.some.injEq] at hagg
  obtain ⟨mrs, hmrs, oacc, hoacc, atps, hatps, atd, hatd, ald, hald, hagg⟩ :=
    hagg
  subst hagg
  simp only []
  obtain ⟨hcc, hlen⟩ := build_model_reports_counts _ mrs hmrs
  have hccsum : (mrs.map fun mr => mr.correct_count).sum =
      cr.results.countP fun r => r.correct := by
    rw [hcc]
    exact group_by_model_countP _ cr.results
  have hsumlen : (mrs.map fun mr => mr.correct_count).sum +
      (mrs.map fun mr => mr.incorrect_count).sum = cr.results.length := by
    rw [← sum_map_add_nat, hlen]
    exact group_by_model_total_length cr.results
  unfold pydiv at hoacc
  split at hoacc
  · simp at hoacc
  · simp only [Option.some.injEq] at hoacc
    subst hoacc
    rw [← Nat.cast_add, hsumlen, hccsum]

/-- Witness for the amended C1 at a one-result complete result, whose
report has pooled overall accuracy `1/1`. -/
theorem C1_overall_accuracy_pooled_witness :
    repOne.overall_accuracy =
      ((crOne.results.countP fun r => r.correct : ℕ) : ℚ) /
        (crOne.results.length : ℚ) :=
  C1_overall_accuracy_pooled crOne repOne (by
    simp [generate_report, aggregate, build_model_reports, mk_model_report,
      group_by_model, group_step, pydiv, crOne, mkRes, okResponse, repOne]
    exact ⟨rfl, rfl⟩)

end Exbench
